import Mathlib

/-!
# Verification of the video-cosmos frontend API client

Shallow embedding of `src/frontend/lib/api.ts`: the localStorage-backed
token/user Store, the `apiRequest` executor, and the endpoint functions,
together with a model of the host-environment pieces that file uses
(`localStorage`, `JSON.parse` / `JSON.stringify`, `fetch`, JS truthiness
and JS string coercion).  All definitions are executable; machine-level
behaviour of the host (JSON codec, URL-encoding) is modelled explicitly.
-/

set_option maxRecDepth 4096

namespace VideoCosmos

/-! ## JSON values

Modelled from the spec: backend-defined value objects (`User`, `Token`
payloads, error bodies) are JSON values "passed through opaquely"; the
`@/types` module is not among the sources, so a user record is simply a
JSON value.  Object fields are kept in order of appearance.
-/

mutual
inductive Json where
  | null : Json
  | bool (b : Bool) : Json
  | num (n : Int) : Json
  | str (s : String) : Json
  | arr (elems : JsonList) : Json
  | obj (fields : JsonFields) : Json
inductive JsonList where
  | nil : JsonList
  | cons (hd : Json) (tl : JsonList) : JsonList
inductive JsonFields where
  | nil : JsonFields
  | cons (key : String) (val : Json) (tl : JsonFields) : JsonFields
end

/-! ## The host JSON codec

`JSON.stringify` prints with no whitespace, escaping quote and backslash;
`JSON.parse` is a recursive-descent reader of that grammar (fuel-driven;
the fuel picked in `Json.parse` dominates any input).  A `none` result of
`Json.parse` models a thrown `SyntaxError`.
-/

/-- The decimal digit character for `d < 10`. -/
def digitChar (d : Nat) : Char := Char.ofNat (48 + d)

/-- Numeric value of a decimal digit character. -/
def digitVal (c : Char) : Nat := c.toNat - 48

/-- Decimal digits of `n`, most significant first (`n < fuel` suffices). -/
def natDigitsAux : Nat → Nat → List Char
  | 0, _ => []
  | fuel+1, n => if n < 10 then [digitChar n] else natDigitsAux fuel (n / 10) ++ [digitChar (n % 10)]

/-- Decimal digits of `n`, most significant first. -/
def natDigits (n : Nat) : List Char := natDigitsAux (n + 1) n

/-- Characters of a JS integer number literal. -/
def intChars (n : Int) : List Char :=
  if n < 0 then '-' :: natDigits n.natAbs else natDigits n.toNat

/-- Escape one JSON string-body character (quote and backslash). -/
def escChar (c : Char) : List Char := if c = '"' ∨ c = '\\' then ['\\', c] else [c]

/-- Escape a JSON string body. -/
def escList : List Char → List Char
  | [] => []
  | c :: cs => escChar c ++ escList cs

/-- A JSON string literal with body `cs`. -/
def strLit (cs : List Char) : List Char := '"' :: escList cs ++ ['"']

mutual
def stringifyAux : Json → List Char
  | .null => ['n', 'u', 'l', 'l']
  | .bool b => if b then ['t', 'r', 'u', 'e'] else ['f', 'a', 'l', 's', 'e']
  | .num n => intChars n
  | .str s => strLit s.data
  | .arr es => '[' :: stringifyElemsAux es ++ [']']
  | .obj fs => '\x7b' :: stringifyFieldsAux fs ++ ['\x7d']
def stringifyElemsAux : JsonList → List Char
  | .nil => []
  | .cons v .nil => stringifyAux v
  | .cons v (.cons w vs) => stringifyAux v ++ ',' :: stringifyElemsAux (.cons w vs)
def stringifyFieldsAux : JsonFields → List Char
  | .nil => []
  | .cons k v .nil => strLit k.data ++ ':' :: stringifyAux v
  | .cons k v (.cons k2 v2 fs) =>
      strLit k.data ++ ':' :: stringifyAux v ++ ',' :: stringifyFieldsAux (.cons k2 v2 fs)
end

/-- Host `JSON.stringify` on the modelled JSON values. -/
def Json.stringify (j : Json) : String := String.mk (stringifyAux j)

/-- Consume an expected literal run of characters. -/
def expectChars : List Char → List Char → Option (List Char)
  | [], cs => some cs
  | p :: ps, c :: cs => if c = p then expectChars ps cs else none
  | _ :: _, [] => none

/-- Read a JSON string body up to the closing quote, undoing escapes. -/
def parseStrBody : List Char → Option (List Char × List Char)
  | [] => none
  | c :: rest =>
    if c = '"' then some ([], rest)
    else if c = '\\' then
      match rest with
      | [] => none
      | d :: rest2 => (parseStrBody rest2).map fun p => (d :: p.1, p.2)
    else (parseStrBody rest).map fun p => (c :: p.1, p.2)

/-- Accumulate decimal digits into `acc`. -/
def parseDigitsAux : Nat → List Char → Nat × List Char
  | acc, [] => (acc, [])
  | acc, c :: rest =>
    if c.isDigit then parseDigitsAux (acc * 10 + digitVal c) rest else (acc, c :: rest)

mutual
def parseValue : Nat → List Char → Option (Json × List Char)
  | 0, _ => none
  | fuel+1, cs =>
    match cs with
    | [] => none
    | c :: rest =>
      if c = 'n' then (expectChars ['u', 'l', 'l'] rest).map fun r => (.null, r)
      else if c = 't' then (expectChars ['r', 'u', 'e'] rest).map fun r => (.bool true, r)
      else if c = 'f' then (expectChars ['a', 'l', 's', 'e'] rest).map fun r => (.bool false, r)
      else if c = '"' then (parseStrBody rest).map fun p => (.str (String.mk p.1), p.2)
      else if c = '[' then
        match rest with
        | [] => none
        | d :: r2 =>
          if d = ']' then some (.arr .nil, r2)
          else (parseElems fuel (d :: r2)).map fun p => (.arr p.1, p.2)
      else if c = '\x7b' then
        match rest with
        | [] => none
        | d :: r2 =>
          if d = '\x7d' then some (.obj .nil, r2)
          else (parseFields fuel (d :: r2)).map fun p => (.obj p.1, p.2)
      else if c = '-' then
        match rest with
        | [] => none
        | d :: r2 =>
          if d.isDigit then
            let p := parseDigitsAux 0 (d :: r2)
            some (.num (-(p.1 : Int)), p.2)
          else none
      else if c.isDigit then
        let p := parseDigitsAux 0 (c :: rest)
        some (.num (p.1 : Int), p.2)
      else none
def parseElems : Nat → List Char → Option (JsonList × List Char)
  | 0, _ => none
  | fuel+1, cs =>
    (parseValue fuel cs).bind fun vp =>
      match vp.2 with
      | [] => none
      | d :: r2 =>
        if d = ',' then (parseElems fuel r2).map fun p => (.cons vp.1 p.1, p.2)
        else if d = ']' then some (.cons vp.1 .nil, r2)
        else none
def parseFields : Nat → List Char → Option (JsonFields × List Char)
  | 0, _ => none
  | fuel+1, cs =>
    match cs with
    | [] => none
    | c :: rest =>
      if c = '"' then
        (parseStrBody rest).bind fun kp =>
          match kp.2 with
          | [] => none
          | d :: r2 =>
            if d = ':' then
              (parseValue fuel r2).bind fun vp =>
                match vp.2 with
                | [] => none
                | e :: r3 =>
                  if e = ',' then
                    (parseFields fuel r3).map fun fp => (.cons (String.mk kp.1) vp.1 fp.1, fp.2)
                  else if e = '\x7d' then some (.cons (String.mk kp.1) vp.1 .nil, r3)
                  else none
            else none
      else none
end

/-- Host `JSON.parse`: `none` models a thrown `SyntaxError`.  The whole
input must be consumed.  The fuel `2 * length + 2` dominates the recursion
depth of any parse, since every level consumes at least one character. -/
def Json.parse (s : String) : Option Json :=
  match parseValue (2 * s.length + 2) s.data with
  | some (j, []) => some j
  | _ => none

/-! ## JS-value semantics used by `api.ts` -/

/-- JS property access (`error.detail`, `token.access_token`) on a parsed
JSON value: `none` models `undefined`.  On a JS object a later duplicate
key wins. -/
def fieldsGet : JsonFields → String → Option Json
  | .nil, _ => none
  | .cons k v fs, key =>
    match fieldsGet fs key with
    | some w => some w
    | none => if k = key then some v else none

def Json.getField : Json → String → Option Json
  | .obj fs, key => fieldsGet fs key
  | _, _ => none

/-- JS truthiness of a JSON value. -/
def Json.truthy : Json → Bool
  | .null => false
  | .bool b => b
  | .num n => !(n == 0)
  | .str s => !(s == "")
  | .arr _ => true
  | .obj _ => true

/-- JS truthiness of a possibly-`undefined` value. -/
def jsTruthy : Option Json → Bool
  | none => false
  | some j => j.truthy

mutual
/-- JS `String(...)` coercion of a JSON value (template literals,
`new Error`). -/
def jsToString : Json → String
  | .null => "null"
  | .bool true => "true"
  | .bool false => "false"
  | .num n => String.mk (intChars n)
  | .str s => s
  | .arr es => jsElemsToString es
  | .obj _ => "[object Object]"
/-- JS `Array.prototype.toString`: elements joined by commas, `null`
printing as the empty string. -/
def jsElemsToString : JsonList → String
  | .nil => ""
  | .cons v .nil => (match v with | .null => "" | _ => jsToString v)
  | .cons v (.cons w vs) =>
      (match v with | .null => "" | _ => jsToString v) ++ "," ++ jsElemsToString (.cons w vs)
end

/-! ## The browser environment and the Store (`api.ts` lines 17–52) -/

/-- The browser-like host state: whether `window` is defined, and the
`localStorage` contents as key/value entries (most recent first). -/
structure BrowserEnv where
  hasWindow : Bool
  storage : List (String × String)

/-- Embeds `localStorage.getItem`. -/
def storageGet (m : List (String × String)) (k : String) : Option String :=
  (m.find? fun p => p.1 == k).map fun p => p.2

/-- Embeds `localStorage.setItem`. -/
def storageSet (m : List (String × String)) (k v : String) : List (String × String) :=
  (k, v) :: m.filter fun p => !(p.1 == k)

/-- Embeds `localStorage.removeItem`. -/
def storageRemove (m : List (String × String)) (k : String) : List (String × String) :=
  m.filter fun p => !(p.1 == k)

/-- Embeds `getToken`: `null` when `window` is undefined, else
`localStorage.getItem("access_token")`. -/
def getToken (env : BrowserEnv) : Option String :=
  if env.hasWindow = false then none
  else storageGet env.storage "access_token"

/-- Embeds `setToken`. -/
def setToken (env : BrowserEnv) (token : String) : BrowserEnv :=
  if env.hasWindow = false then env
  else { env with storage := storageSet env.storage "access_token" token }

/-- Embeds `removeToken`. -/
def removeToken (env : BrowserEnv) : BrowserEnv :=
  if env.hasWindow = false then env
  else { env with storage := storageRemove env.storage "access_token" }

/-- Embeds `getUser`: reads the `"user"` entry; an absent or empty entry is falsy
(`!userStr`), and a `JSON.parse` failure is caught (`try … catch`),
returning `null`. -/
def getUser (env : BrowserEnv) : Option Json :=
  if env.hasWindow = false then none
  else
    match storageGet env.storage "user" with
    | none => none
    | some userStr =>
      if userStr == "" then none
      else
        match Json.parse userStr with
        | some u => some u
        | none => none

/-- Embeds `setUser`: stores `JSON.stringify(user)`. -/
def setUser (env : BrowserEnv) (user : Json) : BrowserEnv :=
  if env.hasWindow = false then env
  else { env with storage := storageSet env.storage "user" (Json.stringify user) }

/-- Embeds `removeUser`. -/
def removeUser (env : BrowserEnv) : BrowserEnv :=
  if env.hasWindow = false then env
  else { env with storage := storageRemove env.storage "user" }

/-! ## The request executor (`apiRequest`, lines 55–81) -/

/-- One value appended to a `FormData`: a string field or an opaque file. -/
inductive FormEntry where
  | str (value : String) : FormEntry
  | file (name : String) : FormEntry

/-- A fetch request body. -/
inductive BodyInit where
  | text (s : String) : BodyInit
  | formData (parts : List (String × FormEntry)) : BodyInit

/-- The `RequestInit` options `apiRequest` accepts: method (`fetch`
defaults to GET), headers and body. -/
structure RequestOptions where
  method : String := "GET"
  headers : List (String × String) := []
  body : Option BodyInit := none

/-- An HTTP response as observed by `apiRequest`: `ok`, numeric `status`,
and the raw body text (`response.json()` = `Json.parse body`). -/
structure HttpResponse where
  ok : Bool
  status : Nat
  body : String

/-- A JS exception surfaced by `apiRequest`: `new Error(message)` on a
non-ok status, the `SyntaxError` from `response.json()` on a malformed
success body, or the `TypeError` from reading `.detail` of `null`. -/
inductive JsError where
  | error (message : String) : JsError
  | syntaxErr : JsError
  | typeError : JsError

/-- The request as handed to `fetch`. -/
structure SentRequest where
  url : String
  method : String
  headers : List (String × String)
  body : Option BodyInit

/-- Embeds `process.env.NEXT_PUBLIC_API_URL || "http://localhost:8000"` (line 15):
JS `||` takes the fallback when the variable is undefined or empty. -/
def API_BASE_URL (envVar : Option String) : String :=
  match envVar with
  | some s => if s == "" then "http://localhost:8000" else s
  | none => "http://localhost:8000"

/-- JS record update `headers["Authorization"] = v` (iteration order of the
record is irrelevant to the embedding; lookups see the new value). -/
def headersSet (hs : List (String × String)) (k v : String) : List (String × String) :=
  (hs.filter fun p => !(p.1 == k)) ++ [(k, v)]

/-- Lookup in a string-keyed header record. -/
def headersGet (hs : List (String × String)) (k : String) : Option String :=
  (hs.find? fun p => p.1 == k).map fun p => p.2

/-- The error thrown by `apiRequest` on a non-ok response (lines 73–76):
`const error = await response.json().catch(() => ({detail: "An error occurred"}))`
then `throw new Error(error.detail || ⟨HTTP error! status: N⟩)`.  Reading
`.detail` of JSON `null` throws a `TypeError`; a truthy `detail` is
string-coerced by `new Error`. -/
def apiRequestError (response : HttpResponse) : JsError :=
  let error : Json :=
    match Json.parse response.body with
    | some j => j
    | none => .obj (.cons "detail" (.str "An error occurred") .nil)
  match error with
  | .null => .typeError
  | _ =>
    match error.getField "detail" with
    | some d =>
      if d.truthy then .error (jsToString d)
      else .error ("HTTP error! status: " ++ toString response.status)
    | none => .error ("HTTP error! status: " ++ toString response.status)

/-- Embeds `apiRequest` (lines 55–81): reads the token from the Store, spreads the
caller headers and sets `Authorization: Bearer <token>` when the token is
truthy, issues the fetch against `API_BASE_URL + endpoint`, and either
throws (non-ok status, or malformed JSON in a success body) or returns the
parsed JSON body.  The response the backend gives is an argument; the
issued request is returned alongside the outcome. -/
def apiRequest (envVar : Option String) (env : BrowserEnv) (endpoint : String)
    (options : RequestOptions) (response : HttpResponse) :
    SentRequest × Except JsError Json :=
  let token := getToken env
  let headers :=
    match token with
    | some t =>
      if t == "" then options.headers
      else headersSet options.headers "Authorization" ("Bearer " ++ t)
    | none => options.headers
  let sent : SentRequest :=
    { url := API_BASE_URL envVar ++ endpoint,
      method := options.method,
      headers := headers,
      body := options.body }
  let result : Except JsError Json :=
    if response.ok = false then .error (apiRequestError response)
    else
      match Json.parse response.body with
      | some j => .ok j
      | none => .error .syntaxErr
  (sent, result)

/-! ## Form encodings -/

/-- Upper-case hex digit. -/
def hexDigit (n : Nat) : Char := if n < 10 then digitChar n else Char.ofNat (55 + n)

/-- One `application/x-www-form-urlencoded` escaped character
(`URLSearchParams`): ASCII alphanumerics and `*-._` kept, space as `+`,
anything else percent-encoded (ASCII model). -/
def urlEncodeChar (c : Char) : List Char :=
  if c.isAlphanum ∨ c = '*' ∨ c = '-' ∨ c = '.' ∨ c = '_' then [c]
  else if c = ' ' then ['+']
  else ['%', hexDigit (c.toNat / 16 % 16), hexDigit (c.toNat % 16)]

/-- Percent-encode a string. -/
def urlEncode (s : String) : String :=
  String.mk (s.data.foldr (fun c acc => urlEncodeChar c ++ acc) [])

/-- Embeds `URLSearchParams.toString()` over the appended pairs. -/
def formEncode : List (String × String) → String
  | [] => ""
  | [(k, v)] => urlEncode k ++ "=" ++ urlEncode v
  | (k, v) :: ps => urlEncode k ++ "=" ++ urlEncode v ++ "&" ++ formEncode ps

/-! ## Endpoint functions (lines 84–186) -/

/-- Embeds `register` (lines 84–97). -/
def register (envVar : Option String) (env : BrowserEnv) (username email password : String)
    (response : HttpResponse) : SentRequest × Except JsError Json :=
  apiRequest envVar env "/auth/register"
    { method := "POST",
      headers := [("Content-Type", "application/x-www-form-urlencoded")],
      body := some (.text (formEncode
        [("username", username), ("email", email), ("password", password)])) }
    response

/-- The options `login` passes to `apiRequest`. -/
def loginOptions (username password : String) : RequestOptions :=
  { method := "POST",
    headers := [("Content-Type", "application/x-www-form-urlencoded")],
    body := some (.text (formEncode
      [("username", username), ("password", password), ("grant_type", "password")])) }

/-- Embeds `login` (lines 99–116): posts the form; on success persists
`token.access_token` and `token.user` into the Store and returns the token
object.  The TypeScript cast of the parsed JSON to `Token` is unchecked: a
missing field is `undefined`, which the storage layer coerces to the
string `"undefined"`. -/
def login (envVar : Option String) (env : BrowserEnv) (username password : String)
    (response : HttpResponse) : SentRequest × BrowserEnv × Except JsError Json :=
  let r := apiRequest envVar env "/auth/login" (loginOptions username password) response
  match r.2 with
  | .error e => (r.1, env, .error e)
  | .ok token =>
    let env1 :=
      match token.getField "access_token" with
      | some (.str s) => setToken env s
      | some j => setToken env (jsToString j)
      | none => setToken env "undefined"
    let env2 :=
      match token.getField "user" with
      | some u => setUser env1 u
      | none =>
        if env1.hasWindow = false then env1
        else { env1 with storage := storageSet env1.storage "user" "undefined" }
    (r.1, env2, .ok token)

/-- Embeds `getCurrentUser` (lines 118–120). -/
def getCurrentUser (envVar : Option String) (env : BrowserEnv) (response : HttpResponse) :
    SentRequest × Except JsError Json :=
  apiRequest envVar env "/auth/me" {} response

/-- Embeds `listVideos` (lines 123–125). -/
def listVideos (envVar : Option String) (env : BrowserEnv) (response : HttpResponse) :
    SentRequest × Except JsError Json :=
  apiRequest envVar env "/videos" {} response

/-- Embeds `getVideo` (lines 127–129). -/
def getVideo (envVar : Option String) (env : BrowserEnv) (videoId : String)
    (response : HttpResponse) : SentRequest × Except JsError Json :=
  apiRequest envVar env ("/videos/" ++ videoId) {} response

/-- Embeds `getVideoStream` (lines 131–133). -/
def getVideoStream (envVar : Option String) (env : BrowserEnv) (videoId : String)
    (response : HttpResponse) : SentRequest × Except JsError Json :=
  apiRequest envVar env ("/videos/" ++ videoId ++ "/stream") {} response

/-- Modelled from the spec: `UploadVideoData` (from the absent `@/types`)
is a title, an opaque file, an optional recipe and an optional visibility
("multipart form (title, file, optional recipe, visibility default
public)"). -/
structure UploadVideoData where
  title : String
  file : String
  recipe : Option String := none
  visibility : Option String := none

/-- The `FormData` built by `uploadVideo` (lines 136–142): `recipe`
appended only when truthy, `visibility` defaulting through JS `||`. -/
def uploadVideoForm (data : UploadVideoData) : List (String × FormEntry) :=
  [("title", FormEntry.str data.title), ("file", FormEntry.file data.file)]
  ++ (match data.recipe with
      | some r => if r == "" then [] else [("recipe", FormEntry.str r)]
      | none => [])
  ++ [("visibility", FormEntry.str
      (match data.visibility with
       | some v => if v == "" then "public" else v
       | none => "public"))]

/-- Embeds `FormData.get`: the first value appended under a name. -/
def formGet (parts : List (String × FormEntry)) (k : String) : Option FormEntry :=
  (parts.find? fun p => p.1 == k).map fun p => p.2

/-- Embeds `uploadVideo` (lines 135–148). -/
def uploadVideo (envVar : Option String) (env : BrowserEnv) (data : UploadVideoData)
    (response : HttpResponse) : SentRequest × Except JsError Json :=
  apiRequest envVar env "/videos"
    { method := "POST", body := some (.formData (uploadVideoForm data)) }
    response

/-- Embeds `getUserProfile` (lines 151–153). -/
def getUserProfile (envVar : Option String) (env : BrowserEnv) (userId : String)
    (response : HttpResponse) : SentRequest × Except JsError Json :=
  apiRequest envVar env ("/users/" ++ userId) {} response

/-- Embeds `getUserVideos` (lines 155–157). -/
def getUserVideos (envVar : Option String) (env : BrowserEnv) (userId : String)
    (response : HttpResponse) : SentRequest × Except JsError Json :=
  apiRequest envVar env ("/users/" ++ userId ++ "/videos") {} response

/-- Embeds `followUser` (lines 159–163). -/
def followUser (envVar : Option String) (env : BrowserEnv) (userId : String)
    (response : HttpResponse) : SentRequest × Except JsError Json :=
  apiRequest envVar env ("/users/" ++ userId ++ "/follow") { method := "POST" } response

/-- Embeds `unfollowUser` (lines 165–169). -/
def unfollowUser (envVar : Option String) (env : BrowserEnv) (userId : String)
    (response : HttpResponse) : SentRequest × Except JsError Json :=
  apiRequest envVar env ("/users/" ++ userId ++ "/follow") { method := "DELETE" } response

/-- Embeds `getFollowers` (lines 171–173). -/
def getFollowers (envVar : Option String) (env : BrowserEnv) (userId : String)
    (response : HttpResponse) : SentRequest × Except JsError Json :=
  apiRequest envVar env ("/users/" ++ userId ++ "/followers") {} response

/-- Embeds `getFollowing` (lines 175–177). -/
def getFollowing (envVar : Option String) (env : BrowserEnv) (userId : String)
    (response : HttpResponse) : SentRequest × Except JsError Json :=
  apiRequest envVar env ("/users/" ++ userId ++ "/following") {} response

/-- Embeds `getFeed` (lines 180–182). -/
def getFeed (envVar : Option String) (env : BrowserEnv) (response : HttpResponse) :
    SentRequest × Except JsError Json :=
  apiRequest envVar env "/feed" {} response

/-! ## Codec correctness: `Json.parse` inverts `Json.stringify` -/

/-- The next character, if any, is not a decimal digit. -/
def headNotDigit : List Char → Bool
  | [] => true
  | c :: _ => !c.isDigit


theorem expectChars_append (ps rest : List Char) : expectChars ps (ps ++ rest) = some rest := by
  induction ps with
  | nil => rfl
  | cons p ps ih => simp [expectChars, ih]

theorem parseStrBody_escList (cs rest : List Char) :
    parseStrBody (escList cs ++ '"' :: rest) = some (cs, rest) := by
  induction cs with
  | nil =>
    simp only [escList, List.nil_append]
    rw [parseStrBody.eq_def]
    simp
  | cons c cs ih =>
    by_cases h : c = '"' ∨ c = '\\'
    · simp only [escList, escChar, if_pos h, List.cons_append, List.nil_append]
      rw [parseStrBody.eq_def]
      simp [ih]
    · push_neg at h
      simp only [escList, escChar, if_neg (show ¬(c = '"' ∨ c = '\\') by tauto),
        List.cons_append, List.nil_append]
      rw [parseStrBody.eq_def]
      simp [h.1, h.2, ih]

theorem digitChar_facts : ∀ d : Nat, d < 10 →
    (digitChar d).isDigit = true ∧ digitVal (digitChar d) = d ∧
    digitChar d ≠ 'n' ∧ digitChar d ≠ 't' ∧ digitChar d ≠ 'f' ∧ digitChar d ≠ '"' ∧
    digitChar d ≠ '[' ∧ digitChar d ≠ '\x7b' ∧ digitChar d ≠ '-' ∧ digitChar d ≠ ']' := by
  decide

theorem natDigitsAux_head (fuel : Nat) :
    ∀ n : Nat, n < fuel → ∃ d tl, d < 10 ∧ natDigitsAux fuel n = digitChar d :: tl := by
  induction fuel with
  | zero => intro n h; omega
  | succ fuel ih =>
    intro n h
    by_cases h10 : n < 10
    · exact ⟨n, [], h10, by simp [natDigitsAux, h10]⟩
    · have hdiv : n / 10 < fuel := by
        have := Nat.div_lt_self (show 0 < n by omega) (show 1 < 10 by norm_num)
        omega
      obtain ⟨d, tl, hd, heq⟩ := ih (n / 10) hdiv
      exact ⟨d, tl ++ [digitChar (n % 10)], hd, by simp [natDigitsAux, h10, heq]⟩

theorem natDigits_head (n : Nat) : ∃ d tl, d < 10 ∧ natDigits n = digitChar d :: tl :=
  natDigitsAux_head (n + 1) n (by omega)

theorem parseDigitsAux_stop (acc : Nat) (rest : List Char) (h : headNotDigit rest = true) :
    parseDigitsAux acc rest = (acc, rest) := by
  cases rest with
  | nil => rfl
  | cons c cs =>
    simp only [headNotDigit, Bool.not_eq_true'] at h
    simp [parseDigitsAux, h]

theorem parseDigitsAux_natDigitsAux (fuel : Nat) :
    ∀ n acc rest, n < fuel →
    parseDigitsAux acc (natDigitsAux fuel n ++ rest)
      = parseDigitsAux (acc * 10 ^ (natDigitsAux fuel n).length + n) rest := by
  induction fuel with
  | zero => intro n _ _ h; omega
  | succ fuel ih =>
    intro n acc rest h
    by_cases h10 : n < 10
    · obtain ⟨hdig, hval, -⟩ := digitChar_facts n h10
      simp [natDigitsAux, h10, parseDigitsAux, hdig, hval]
    · have hdiv : n / 10 < fuel := by
        have := Nat.div_lt_self (show 0 < n by omega) (show 1 < 10 by norm_num)
        omega
      obtain ⟨hdig, hval, -⟩ := digitChar_facts (n % 10) (Nat.mod_lt n (by norm_num))
      rw [natDigitsAux, if_neg h10, List.append_assoc, ih (n / 10) acc _ hdiv]
      simp only [List.cons_append, List.nil_append, parseDigitsAux, hdig, if_pos, hval,
        List.length_append, List.length_cons, List.length_nil]
      congr 1
      rw [pow_succ, ← mul_assoc]
      generalize acc * 10 ^ (natDigitsAux fuel (n / 10)).length = B
      omega

theorem parseDigitsAux_natDigits (n : Nat) (rest : List Char) (h : headNotDigit rest = true) :
    parseDigitsAux 0 (natDigits n ++ rest) = (n, rest) := by
  rw [natDigits, parseDigitsAux_natDigitsAux (n + 1) n 0 rest (by omega)]
  simp [parseDigitsAux_stop _ _ h]

mutual
/-- Fuel sufficient for `parseValue` to re-read a printed value. -/
def jfuel : Json → Nat
  | .null => 1
  | .bool _ => 1
  | .num _ => 1
  | .str _ => 1
  | .arr es => lfuel es + 1
  | .obj fs => ffuel fs + 1
def lfuel : JsonList → Nat
  | .nil => 1
  | .cons v vs => jfuel v + lfuel vs + 1
def ffuel : JsonFields → Nat
  | .nil => 1
  | .cons _ v fs => jfuel v + ffuel fs + 1
end

theorem jfuel_pos (j : Json) : 1 ≤ jfuel j := by
  cases j <;> simp [jfuel]

theorem headNotDigit_cons (c : Char) (r : List Char) : headNotDigit (c :: r) = !c.isDigit := rfl

theorem stringifyAux_head (j : Json) : ∃ c tl, stringifyAux j = c :: tl ∧ c ≠ ']' := by
  cases j with
  | null => exact ⟨'n', ['u', 'l', 'l'], by simp [stringifyAux], by decide⟩
  | bool b =>
    cases b with
    | false => exact ⟨'f', ['a', 'l', 's', 'e'], by simp [stringifyAux], by decide⟩
    | true => exact ⟨'t', ['r', 'u', 'e'], by simp [stringifyAux], by decide⟩
  | num n =>
    rcases lt_or_ge n 0 with hn | hn
    · exact ⟨'-', natDigits n.natAbs, by simp [stringifyAux, intChars, hn], by decide⟩
    · obtain ⟨d, tl, hd, heq⟩ := natDigits_head n.toNat
      obtain ⟨-, -, -, -, -, -, -, -, -, h10⟩ := digitChar_facts d hd
      exact ⟨digitChar d, tl, by simp [stringifyAux, intChars, not_lt.mpr hn, heq], h10⟩
  | str s => exact ⟨'"', escList s.data ++ ['"'], by simp [stringifyAux, strLit], by decide⟩
  | arr es => exact ⟨'[', stringifyElemsAux es ++ [']'], by simp [stringifyAux], by decide⟩
  | obj fs => exact ⟨'\x7b', stringifyFieldsAux fs ++ ['\x7d'], by simp [stringifyAux], by decide⟩

theorem stringifyElemsAux_head (v : Json) (vs : JsonList) :
    ∃ c tl, stringifyElemsAux (.cons v vs) = c :: tl ∧ c ≠ ']' := by
  obtain ⟨c, tl0, hv, hne⟩ := stringifyAux_head v
  cases vs with
  | nil => exact ⟨c, tl0, by simp [stringifyElemsAux, hv], hne⟩
  | cons w vs' =>
    exact ⟨c, tl0 ++ ',' :: stringifyElemsAux (.cons w vs'),
      by simp [stringifyElemsAux, hv], hne⟩

theorem stringifyFieldsAux_head (k : String) (v : Json) (fs : JsonFields) :
    ∃ tl, stringifyFieldsAux (.cons k v fs) = '"' :: tl := by
  cases fs with
  | nil =>
    exact ⟨escList k.data ++ '"' :: ':' :: stringifyAux v,
      by simp [stringifyFieldsAux, strLit]⟩
  | cons k2 v2 fs' =>
    exact ⟨escList k.data ++ '"' :: ':' :: (stringifyAux v ++
        ',' :: stringifyFieldsAux (.cons k2 v2 fs')),
      by simp [stringifyFieldsAux, strLit]⟩

/-! Step lemmas for the fueled parser. -/

theorem parseValue_step_null (f : Nat) (rest : List Char) :
    parseValue (f + 1) ('n' :: rest) = (expectChars ['u', 'l', 'l'] rest).map fun r => (.null, r) := by
  rw [parseValue.eq_def]; simp

theorem parseValue_step_true (f : Nat) (rest : List Char) :
    parseValue (f + 1) ('t' :: rest)
      = (expectChars ['r', 'u', 'e'] rest).map fun r => (.bool true, r) := by
  rw [parseValue.eq_def]; simp

theorem parseValue_step_false (f : Nat) (rest : List Char) :
    parseValue (f + 1) ('f' :: rest)
      = (expectChars ['a', 'l', 's', 'e'] rest).map fun r => (.bool false, r) := by
  rw [parseValue.eq_def]; simp

theorem parseValue_step_str (f : Nat) (rest : List Char) :
    parseValue (f + 1) ('"' :: rest)
      = (parseStrBody rest).map fun p => (.str (String.mk p.1), p.2) := by
  rw [parseValue.eq_def]; simp

theorem parseValue_step_arr (f : Nat) (d : Char) (r2 : List Char) :
    parseValue (f + 1) ('[' :: d :: r2)
      = if d = ']' then some (.arr .nil, r2)
        else (parseElems f (d :: r2)).map fun p => (.arr p.1, p.2) := by
  rw [parseValue.eq_def]; simp

theorem parseValue_step_obj (f : Nat) (d : Char) (r2 : List Char) :
    parseValue (f + 1) ('\x7b' :: d :: r2)
      = if d = '\x7d' then some (.obj .nil, r2)
        else (parseFields f (d :: r2)).map fun p => (.obj p.1, p.2) := by
  rw [parseValue.eq_def]; simp

theorem parseValue_step_neg (f : Nat) (d : Char) (r2 : List Char) :
    parseValue (f + 1) ('-' :: d :: r2)
      = if d.isDigit then
          some (.num (-((parseDigitsAux 0 (d :: r2)).1 : Int)), (parseDigitsAux 0 (d :: r2)).2)
        else none := by
  rw [parseValue.eq_def]; simp

theorem parseValue_step_digit (f : Nat) (c : Char) (rest : List Char)
    (h1 : c.isDigit = true) (h3 : c ≠ 'n') (h4 : c ≠ 't') (h5 : c ≠ 'f') (h6 : c ≠ '"')
    (h7 : c ≠ '[') (h8 : c ≠ '\x7b') (h9 : c ≠ '-') :
    parseValue (f + 1) (c :: rest)
      = some (.num ((parseDigitsAux 0 (c :: rest)).1 : Int), (parseDigitsAux 0 (c :: rest)).2) := by
  rw [parseValue.eq_def]; simp [h1, h3, h4, h5, h6, h7, h8, h9]

theorem parseElems_step (f : Nat) (cs : List Char) :
    parseElems (f + 1) cs
      = (parseValue f cs).bind fun vp =>
          match vp.2 with
          | [] => none
          | d :: r2 =>
            if d = ',' then (parseElems f r2).map fun p => (.cons vp.1 p.1, p.2)
            else if d = ']' then some (.cons vp.1 .nil, r2)
            else none := by
  rw [parseElems.eq_def]

theorem parseFields_step (f : Nat) (rest : List Char) :
    parseFields (f + 1) ('"' :: rest)
      = (parseStrBody rest).bind fun kp =>
          match kp.2 with
          | [] => none
          | d :: r2 =>
            if d = ':' then
              (parseValue f r2).bind fun vp =>
                match vp.2 with
                | [] => none
                | e :: r3 =>
                  if e = ',' then
                    (parseFields f r3).map fun fp => (.cons (String.mk kp.1) vp.1 fp.1, fp.2)
                  else if e = '\x7d' then some (.cons (String.mk kp.1) vp.1 .nil, r3)
                  else none
            else none := by
  rw [parseFields.eq_def]; simp

/-! The roundtrip: the parser re-reads exactly what the printer wrote. -/

mutual
theorem parseValue_stringifyAux (j : Json) (fuel : Nat) (rest : List Char)
    (hfuel : jfuel j ≤ fuel) (hrest : headNotDigit rest = true) :
    parseValue fuel (stringifyAux j ++ rest) = some (j, rest) := by
  obtain ⟨f, rfl⟩ : ∃ f, fuel = f + 1 := by
    have h1 := jfuel_pos j
    cases fuel with
    | zero => omega
    | succ f => exact ⟨f, rfl⟩
  cases j with
  | null => simp [stringifyAux, parseValue_step_null, expectChars]
  | bool b =>
    cases b with
    | false => simp [stringifyAux, parseValue_step_false, expectChars]
    | true => simp [stringifyAux, parseValue_step_true, expectChars]
  | str s =>
    simp only [stringifyAux, strLit, List.cons_append, List.append_assoc, List.singleton_append]
    rw [parseValue_step_str, parseStrBody_escList]
    rfl
  | num n =>
    rcases lt_or_ge n 0 with hn | hn
    · obtain ⟨d, tl, hd, heq⟩ := natDigits_head n.natAbs
      obtain ⟨h1, -, -, -, -, -, -, -, -, -⟩ := digitChar_facts d hd
      simp only [stringifyAux, intChars, if_pos hn, List.cons_append]
      rw [heq]
      simp only [List.cons_append]
      rw [parseValue_step_neg, if_pos h1]
      rw [← List.cons_append, ← heq, parseDigitsAux_natDigits _ _ hrest]
      simp only [Option.some.injEq, Prod.mk.injEq, Json.num.injEq]
      exact ⟨by omega, trivial⟩
    · obtain ⟨d, tl, hd, heq⟩ := natDigits_head n.toNat
      obtain ⟨h1, -, h3, h4, h5, h6, h7, h8, h9, -⟩ := digitChar_facts d hd
      simp only [stringifyAux, intChars, if_neg (not_lt.mpr hn)]
      rw [heq]
      simp only [List.cons_append]
      rw [parseValue_step_digit f (digitChar d) (tl ++ rest) h1 h3 h4 h5 h6 h7 h8 h9]
      rw [← List.cons_append, ← heq, parseDigitsAux_natDigits _ _ hrest]
      simp only [Option.some.injEq, Prod.mk.injEq, Json.num.injEq]
      exact ⟨by omega, trivial⟩
  | arr es =>
    cases es with
    | nil =>
      simp only [stringifyAux, stringifyElemsAux, List.nil_append, List.cons_append,
        List.singleton_append]
      rw [parseValue_step_arr, if_pos rfl]
    | cons v vs =>
      obtain ⟨c, tl, hv, hne⟩ := stringifyElemsAux_head v vs
      have hl : lfuel (.cons v vs) ≤ f := by
        simp only [jfuel] at hfuel; omega
      simp only [stringifyAux, List.cons_append, List.append_assoc, List.singleton_append]
      rw [hv]
      simp only [List.cons_append]
      rw [parseValue_step_arr, if_neg hne]
      rw [← List.cons_append, ← hv]
      simp only [List.nil_append]
      rw [parseElems_stringifyElemsAux v vs f rest hl]
      rfl
  | obj fs =>
    cases fs with
    | nil =>
      simp only [stringifyAux, stringifyFieldsAux, List.nil_append, List.cons_append,
        List.singleton_append]
      rw [parseValue_step_obj, if_pos rfl]
    | cons k v fs' =>
      obtain ⟨tl, htl⟩ := stringifyFieldsAux_head k v fs'
      have hf2 : ffuel (.cons k v fs') ≤ f := by
        simp only [jfuel] at hfuel; omega
      simp only [stringifyAux, List.cons_append, List.append_assoc, List.singleton_append]
      rw [htl]
      simp only [List.cons_append]
      rw [parseValue_step_obj, if_neg (by decide)]
      rw [← List.cons_append, ← htl]
      simp only [List.nil_append]
      rw [parseFields_stringifyFieldsAux k v fs' f rest hf2]
      rfl
termination_by sizeOf j

theorem parseElems_stringifyElemsAux (v : Json) (vs : JsonList) (fuel : Nat) (rest : List Char)
    (hfuel : lfuel (.cons v vs) ≤ fuel) :
    parseElems fuel (stringifyElemsAux (.cons v vs) ++ ']' :: rest) = some (.cons v vs, rest) := by
  obtain ⟨f, rfl⟩ : ∃ f, fuel = f + 1 := by
    cases fuel with
    | zero => simp [lfuel] at hfuel
    | succ f => exact ⟨f, rfl⟩
  cases vs with
  | nil =>
    simp only [stringifyElemsAux]
    rw [parseElems_step]
    rw [parseValue_stringifyAux v f (']' :: rest)
      (by simp [lfuel] at hfuel; omega) (by rw [headNotDigit_cons]; decide)]
    simp
  | cons w vs' =>
    simp only [stringifyElemsAux, List.cons_append, List.append_assoc]
    rw [parseElems_step]
    rw [parseValue_stringifyAux v f (',' :: (stringifyElemsAux (.cons w vs') ++ ']' :: rest))
      (by simp [lfuel] at hfuel; omega) (by rw [headNotDigit_cons]; decide)]
    rw [Option.some_bind]
    simp only [List.nil_append]
    rw [parseElems_stringifyElemsAux w vs' f rest (by simp [lfuel] at hfuel ⊢; omega)]
    simp
termination_by sizeOf v + sizeOf vs + 1

theorem parseFields_stringifyFieldsAux (k : String) (v : Json) (fs : JsonFields) (fuel : Nat)
    (rest : List Char) (hfuel : ffuel (.cons k v fs) ≤ fuel) :
    parseFields fuel (stringifyFieldsAux (.cons k v fs) ++ '\x7d' :: rest)
      = some (.cons k v fs, rest) := by
  obtain ⟨f, rfl⟩ : ∃ f, fuel = f + 1 := by
    cases fuel with
    | zero => simp [ffuel] at hfuel
    | succ f => exact ⟨f, rfl⟩
  cases fs with
  | nil =>
    simp only [stringifyFieldsAux, strLit, List.cons_append, List.append_assoc,
      List.singleton_append]
    rw [parseFields_step]
    rw [parseStrBody_escList]
    rw [Option.some_bind]
    simp only [List.nil_append]
    simp
    rw [parseValue_stringifyAux v f ('\x7d' :: rest)
      (by simp [ffuel] at hfuel; omega) (by rw [headNotDigit_cons]; decide)]
    simp
  | cons k2 v2 fs' =>
    simp only [stringifyFieldsAux, strLit, List.cons_append, List.append_assoc,
      List.singleton_append]
    rw [parseFields_step]
    rw [parseStrBody_escList]
    rw [Option.some_bind]
    simp only [List.nil_append]
    simp
    rw [parseValue_stringifyAux v f
      (',' :: (stringifyFieldsAux (.cons k2 v2 fs') ++ '\x7d' :: rest))
      (by simp [ffuel] at hfuel; omega) (by rw [headNotDigit_cons]; decide)]
    rw [Option.some_bind]
    simp only [List.nil_append]
    rw [parseFields_stringifyFieldsAux k2 v2 fs' f rest (by simp [ffuel] at hfuel ⊢; omega)]
    simp
termination_by sizeOf v + sizeOf fs + 1
end

mutual
theorem jfuel_le_strAux (j : Json) : jfuel j ≤ 2 * (stringifyAux j).length := by
  cases j with
  | null => simp [jfuel, stringifyAux]
  | bool b => cases b <;> simp [jfuel, stringifyAux]
  | num n =>
    rcases lt_or_ge n 0 with hn | hn
    · obtain ⟨d, tl, -, heq⟩ := natDigits_head n.natAbs
      simp [jfuel, stringifyAux, intChars, hn, heq]
      omega
    · obtain ⟨d, tl, -, heq⟩ := natDigits_head n.toNat
      simp [jfuel, stringifyAux, intChars, not_lt.mpr hn, heq]
      omega
  | str s => simp [jfuel, stringifyAux, strLit]; omega
  | arr es =>
    have := lfuel_le_strAux es
    simp only [jfuel, stringifyAux, List.length_cons, List.length_append,
      List.length_singleton]
    omega
  | obj fs =>
    have := ffuel_le_strAux fs
    simp only [jfuel, stringifyAux, List.length_cons, List.length_append,
      List.length_singleton]
    omega
termination_by sizeOf j
theorem lfuel_le_strAux (es : JsonList) : lfuel es ≤ 2 * (stringifyElemsAux es).length + 2 := by
  cases es with
  | nil => simp [lfuel, stringifyElemsAux]
  | cons v vs =>
    cases vs with
    | nil =>
      have := jfuel_le_strAux v
      simp only [lfuel, stringifyElemsAux]
      omega
    | cons w vs' =>
      have h1 := jfuel_le_strAux v
      have h2 := lfuel_le_strAux (.cons w vs')
      simp only [lfuel, stringifyElemsAux, List.length_append, List.length_cons] at h2 ⊢
      omega
termination_by sizeOf es
theorem ffuel_le_strAux (fs : JsonFields) : ffuel fs ≤ 2 * (stringifyFieldsAux fs).length + 2 := by
  cases fs with
  | nil => simp [ffuel, stringifyFieldsAux]
  | cons k v fs' =>
    cases fs' with
    | nil =>
      have := jfuel_le_strAux v
      simp only [ffuel, stringifyFieldsAux, List.length_append, List.length_cons]
      omega
    | cons k2 v2 fs2 =>
      have h1 := jfuel_le_strAux v
      have h2 := ffuel_le_strAux (.cons k2 v2 fs2)
      simp only [ffuel, stringifyFieldsAux, List.length_append, List.length_cons] at h2 ⊢
      omega
termination_by sizeOf fs
end

theorem stringifyAux_ne_nil (j : Json) : stringifyAux j ≠ [] := by
  obtain ⟨c, tl, heq, -⟩ := stringifyAux_head j
  simp [heq]

theorem Json.stringify_ne_empty (j : Json) : Json.stringify j ≠ "" := by
  intro h
  exact stringifyAux_ne_nil j (congrArg String.data h)

/-- The host JSON codec round-trips every JSON value. -/
theorem Json.parse_stringify (j : Json) : Json.parse (Json.stringify j) = some j := by
  have hfuel : jfuel j ≤ 2 * (Json.stringify j).length + 2 := by
    have h1 := jfuel_le_strAux j
    have h2 : (Json.stringify j).length = (stringifyAux j).length := rfl
    omega
  have h := parseValue_stringifyAux j (2 * (Json.stringify j).length + 2) [] hfuel rfl
  rw [List.append_nil] at h
  unfold Json.parse
  rw [show (Json.stringify j).data = stringifyAux j from rfl, h]

/-! ## Bridge lemmas -/

theorem find?_filter_ne (m : List (String × String)) (k k' : String) (h : k' ≠ k) :
    List.find? (fun p => p.1 == k') (m.filter fun p => !(p.1 == k))
      = List.find? (fun p => p.1 == k') m := by
  induction m with
  | nil => rfl
  | cons a m ih =>
    by_cases ha : a.1 = k
    · have ha' : (a.1 == k') = false := beq_eq_false_iff_ne.mpr (ha ▸ fun hk => h hk.symm)
      have hab : (a.1 == k) = true := beq_iff_eq.mpr ha
      simp [List.filter_cons, hab, ha', ih]
    · have hab : (a.1 == k) = false := beq_eq_false_iff_ne.mpr ha
      by_cases ha2 : a.1 = k'
      · have : (a.1 == k') = true := beq_iff_eq.mpr ha2
        simp [List.filter_cons, hab, this]
      · have : (a.1 == k') = false := beq_eq_false_iff_ne.mpr ha2
        simp [List.filter_cons, hab, this, ih]

theorem storageGet_set_same (m : List (String × String)) (k v : String) :
    storageGet (storageSet m k v) k = some v := by
  simp [storageGet, storageSet, List.find?_cons]

theorem storageGet_set_other (m : List (String × String)) (k k' v : String) (h : k' ≠ k) :
    storageGet (storageSet m k v) k' = storageGet m k' := by
  have hk : (k == k') = false := beq_eq_false_iff_ne.mpr fun hk => h hk.symm
  simp [storageGet, storageSet, List.find?_cons, hk, find?_filter_ne m k k' h]

theorem headersGet_set_same (hs : List (String × String)) (k v : String) :
    headersGet (headersSet hs k v) k = some v := by
  induction hs with
  | nil => simp [headersGet, headersSet, List.find?_cons]
  | cons a hs ih =>
    by_cases ha : a.1 = k
    · have hab : (a.1 == k) = true := beq_iff_eq.mpr ha
      simp only [headersGet, headersSet, List.filter_cons, hab] at ih ⊢
      simp only [Bool.not_true, if_false] at ih ⊢
      exact ih
    · have hab : (a.1 == k) = false := beq_eq_false_iff_ne.mpr ha
      simp only [headersGet, headersSet, List.filter_cons, hab, Bool.not_false, if_true,
        List.cons_append, List.find?_cons] at ih ⊢
      exact ih

/-- The request `apiRequest` sends. -/
theorem apiRequest_sent (envVar : Option String) (env : BrowserEnv) (endpoint : String)
    (options : RequestOptions) (response : HttpResponse) :
    (apiRequest envVar env endpoint options response).1
      = { url := API_BASE_URL envVar ++ endpoint,
          method := options.method,
          headers :=
            match getToken env with
            | some t =>
              if t == "" then options.headers
              else headersSet options.headers "Authorization" ("Bearer " ++ t)
            | none => options.headers,
          body := options.body } := rfl

/-- On a non-ok response `apiRequest` throws the computed error. -/
theorem apiRequest_result_not_ok (envVar : Option String) (env : BrowserEnv) (endpoint : String)
    (options : RequestOptions) (response : HttpResponse) (h : response.ok = false) :
    (apiRequest envVar env endpoint options response).2 = .error (apiRequestError response) := by
  simp [apiRequest, h]

/-- On an ok response with a well-formed JSON body, `apiRequest` returns it. -/
theorem apiRequest_result_ok (envVar : Option String) (env : BrowserEnv) (endpoint : String)
    (options : RequestOptions) (response : HttpResponse) (j : Json)
    (hok : response.ok = true) (hparse : Json.parse response.body = some j) :
    (apiRequest envVar env endpoint options response).2 = .ok j := by
  simp [apiRequest, hok, hparse]

/-- The non-ok error when the body parses to a non-null JSON value. -/
theorem apiRequestError_of_parse (response : HttpResponse) (bj : Json)
    (h : Json.parse response.body = some bj) (hnn : bj ≠ .null) :
    apiRequestError response
      = match bj.getField "detail" with
        | some d =>
          if d.truthy then .error (jsToString d)
          else .error ("HTTP error! status: " ++ toString response.status)
        | none => .error ("HTTP error! status: " ++ toString response.status) := by
  unfold apiRequestError
  rw [h]
  cases bj with
  | null => exact absurd rfl hnn
  | bool b => rfl
  | num n => rfl
  | str s => rfl
  | arr es => rfl
  | obj fs => rfl

/-! ## Claims -/

/-- C5: when no browser-like persistent storage is available
(`window` undefined), every Store getter (`getToken`, `getUser`) returns
`null` without throwing, and every Store setter/remover (`setToken`,
`setUser`, `removeToken`, `removeUser`) returns without performing any
storage operation (the environment is unchanged). -/
theorem C5_prop (env : BrowserEnv) (h : env.hasWindow = false) :
    getToken env = none ∧ getUser env = none
  ∧ (∀ t, setToken env t = env) ∧ (∀ u, setUser env u = env)
  ∧ removeToken env = env ∧ removeUser env = env := by
  refine ⟨?_, ?_, ?_, ?_, ?_, ?_⟩ <;>
    simp [getToken, getUser, setToken, setUser, removeToken, removeUser, h]

/-- Witness for C5 at a concrete storage-less environment. -/
theorem C5_witness :
    getToken ⟨false, [("user", "y")]⟩ = none
  ∧ getUser ⟨false, [("user", "y")]⟩ = none
  ∧ setToken ⟨false, [("user", "y")]⟩ "t" = ⟨false, [("user", "y")]⟩
  ∧ setUser ⟨false, [("user", "y")]⟩ .null = ⟨false, [("user", "y")]⟩
  ∧ removeToken ⟨false, [("user", "y")]⟩ = ⟨false, [("user", "y")]⟩
  ∧ removeUser ⟨false, [("user", "y")]⟩ = ⟨false, [("user", "y")]⟩ := by
  obtain ⟨h1, h2, h3, h4, h5, h6⟩ := C5_prop ⟨false, [("user", "y")]⟩ rfl
  exact ⟨h1, h2, h3 "t", h4 .null, h5, h6⟩

/-- C6: with storage available, `getUser` returns `null` rather than
throwing both when no user entry is stored and when the stored string is
not valid JSON (`Json.parse` fails). -/
theorem C6_prop (env : BrowserEnv) (h : env.hasWindow = true) :
    (storageGet env.storage "user" = none → getUser env = none)
  ∧ (∀ s, storageGet env.storage "user" = some s → Json.parse s = none →
      getUser env = none) := by
  constructor
  · intro h0
    simp [getUser, h, h0]
  · intro s hs hp
    simp [getUser, h, hs, hp]

/-- Witness for C6: no entry, and the non-JSON entry `"oops"`. -/
theorem C6_witness :
    getUser ⟨true, []⟩ = none ∧ getUser ⟨true, [("user", "oops")]⟩ = none :=
  ⟨(C6_prop ⟨true, []⟩ rfl).1 rfl,
   (C6_prop ⟨true, [("user", "oops")]⟩ rfl).2 "oops" rfl rfl⟩

/-- C8: when the underlying request of `login` fails (`apiRequest`
throws, so `login` rethrows), the Store is unchanged: the environment
after the failed call is the input environment. -/
theorem C8_prop (envVar : Option String) (env : BrowserEnv) (username password : String)
    (response : HttpResponse) (e : JsError)
    (h : (login envVar env username password response).2.2 = .error e) :
    (login envVar env username password response).2.1 = env := by
  rcases hres : (apiRequest envVar env "/auth/login" (loginOptions username password) response).2
    with e2 | tok
  · simp [login, hres]
  · simp [login, hres] at h

/-- Witness for C8: a 500 response with an empty body makes `login` throw
and leave the store untouched. -/
theorem C8_witness :
    (login none ⟨true, []⟩ "alice" "pw" ⟨false, 500, ""⟩).2.1 = ⟨true, []⟩ :=
  C8_prop none ⟨true, []⟩ "alice" "pw" ⟨false, 500, ""⟩
    (.error "An error occurred") rfl

/-- C10: with browser-like storage available the Store round-trips:
`getToken` after `setToken t` returns `t`, and for a user record whose
JSON serialization parses back to itself, `getUser` after `setUser u`
returns `u`. -/
theorem C10_prop (env : BrowserEnv) (t : String) (u : Json)
    (hwin : env.hasWindow = true) (hru : Json.parse (Json.stringify u) = some u) :
    getToken (setToken env t) = some t ∧ getUser (setUser env u) = some u := by
  constructor
  · simp [getToken, setToken, hwin, storageGet_set_same]
  · have hne : (Json.stringify u == "") = false :=
      beq_eq_false_iff_ne.mpr (Json.stringify_ne_empty u)
    simp [getUser, setUser, hwin, storageGet_set_same, hne, hru]

/-- Witness for C10 at a concrete token and user record. -/
theorem C10_witness :
    getToken (setToken ⟨true, []⟩ "tok") = some "tok"
  ∧ getUser (setUser ⟨true, []⟩ (.obj (.cons "name" (.str "alice") .nil)))
      = some (.obj (.cons "name" (.str "alice") .nil)) :=
  C10_prop ⟨true, []⟩ "tok" (.obj (.cons "name" (.str "alice") .nil)) rfl rfl

/-- C2 as stated is false: storing the empty string as token makes
`getToken` return it, yet `if (token)` is falsy so no `Authorization`
header is attached. -/
theorem C2_counterexample :
    getToken ⟨true, [("access_token", "")]⟩ = some ""
  ∧ headersGet (apiRequest none ⟨true, [("access_token", "")]⟩ "/feed" {}
      ⟨true, 200, "[]"⟩).1.headers "Authorization" = none :=
  ⟨rfl, rfl⟩

/-- C2 (amended): for every request issued through `apiRequest` while the
Store holds a nonempty token `t`, the request's headers carry
`Authorization: Bearer t`. -/
theorem C2_prop (envVar : Option String) (env : BrowserEnv) (endpoint : String)
    (options : RequestOptions) (response : HttpResponse) (t : String)
    (ht : getToken env = some t) (hne : t ≠ "") :
    headersGet (apiRequest envVar env endpoint options response).1.headers "Authorization"
      = some ("Bearer " ++ t) := by
  have hb : (t == "") = false := beq_eq_false_iff_ne.mpr hne
  rw [apiRequest_sent]
  simp [ht, hb, headersGet_set_same]

/-- Witness for C2 with a stored token `"tok"`. -/
theorem C2_witness :
    headersGet (apiRequest none ⟨true, [("access_token", "tok")]⟩ "/feed" {}
      ⟨true, 200, "[]"⟩).1.headers "Authorization" = some ("Bearer " ++ "tok") :=
  C2_prop none ⟨true, [("access_token", "tok")]⟩ "/feed" {} ⟨true, 200, "[]"⟩
    "tok" rfl (by decide)

/-- C9 as stated is false: with the empty string stored as token
(`getToken` returns it, so a token is "present"), the caller-supplied
`Authorization` header survives instead of being overridden. -/
theorem C9_counterexample :
    getToken ⟨true, [("access_token", "")]⟩ = some ""
  ∧ headersGet (apiRequest none ⟨true, [("access_token", "")]⟩ "/auth/me"
      { headers := [("Authorization", "Bearer evil")] }
      ⟨true, 200, "\x7b\x7d"⟩).1.headers "Authorization" = some "Bearer evil"
  ∧ ("Bearer evil" : String) ≠ "Bearer " ++ "" :=
  ⟨rfl, rfl, by decide⟩

/-- C9 (amended): when a nonempty token `t` is in the Store, the derived
`Authorization` header overrides any caller-supplied `Authorization`
entry: the issued request carries `Bearer t`. -/
theorem C9_prop (envVar : Option String) (env : BrowserEnv) (endpoint : String)
    (options : RequestOptions) (response : HttpResponse) (t v : String)
    (ht : getToken env = some t) (hne : t ≠ "")
    (_hcaller : headersGet options.headers "Authorization" = some v) :
    headersGet (apiRequest envVar env endpoint options response).1.headers "Authorization"
      = some ("Bearer " ++ t) := by
  have hb : (t == "") = false := beq_eq_false_iff_ne.mpr hne
  rw [apiRequest_sent]
  simp [ht, hb, headersGet_set_same]

/-- Witness for C9: a caller `Authorization` of `"Basic abc"` is replaced
by the bearer token. -/
theorem C9_witness :
    headersGet (apiRequest none ⟨true, [("access_token", "t9")]⟩ "/auth/me"
      { headers := [("Authorization", "Basic abc")] }
      ⟨true, 200, "\x7b\x7d"⟩).1.headers "Authorization" = some ("Bearer " ++ "t9") :=
  C9_prop none ⟨true, [("access_token", "t9")]⟩ "/auth/me"
    { headers := [("Authorization", "Basic abc")] } ⟨true, 200, "\x7b\x7d"⟩
    "t9" "Basic abc" rfl (by decide) rfl

/-- C7 as stated is false: with the environment variable set to the empty
string, JS `||` still takes the default base URL. -/
theorem C7_counterexample :
    (apiRequest (some "") ⟨true, []⟩ "/feed" {} ⟨true, 200, "[]"⟩).1.url
      = "http://localhost:8000/feed"
  ∧ ("http://localhost:8000/feed" : String) ≠ "" ++ "/feed" :=
  ⟨rfl, by decide⟩

/-- C7 (amended): `apiRequest` issues its request against the URL made of
the base and the endpoint path; the base is the environment variable when
it is set to a nonempty string, and `"http://localhost:8000"` both when it
is unset and when it is set to the empty string. -/
theorem C7_prop :
    (∀ (b : String) (env : BrowserEnv) (endpoint : String) (options : RequestOptions)
        (response : HttpResponse), b ≠ "" →
        (apiRequest (some b) env endpoint options response).1.url = b ++ endpoint)
  ∧ (∀ (env : BrowserEnv) (endpoint : String) (options : RequestOptions)
        (response : HttpResponse),
        (apiRequest none env endpoint options response).1.url
          = "http://localhost:8000" ++ endpoint)
  ∧ (∀ (env : BrowserEnv) (endpoint : String) (options : RequestOptions)
        (response : HttpResponse),
        (apiRequest (some "") env endpoint options response).1.url
          = "http://localhost:8000" ++ endpoint) := by
  refine ⟨?_, ?_, ?_⟩
  · intro b env endpoint options response hb
    have hb' : (b == "") = false := beq_eq_false_iff_ne.mpr hb
    rw [apiRequest_sent]
    simp [API_BASE_URL, hb']
  · intro env endpoint options response
    rw [apiRequest_sent]
    simp [API_BASE_URL]
  · intro env endpoint options response
    rw [apiRequest_sent]
    simp [API_BASE_URL]

/-- Witness for C7 at a set nonempty variable, at an unset one, and at a
variable set to the empty string. -/
theorem C7_witness :
    (apiRequest (some "https://api.example.com") ⟨true, []⟩ "/feed" {}
      ⟨true, 200, "[]"⟩).1.url = "https://api.example.com" ++ "/feed"
  ∧ (apiRequest none ⟨true, []⟩ "/feed" {} ⟨true, 200, "[]"⟩).1.url
      = "http://localhost:8000" ++ "/feed"
  ∧ (apiRequest (some "") ⟨true, []⟩ "/videos" {} ⟨true, 200, "[]"⟩).1.url
      = "http://localhost:8000" ++ "/videos" :=
  ⟨C7_prop.1 "https://api.example.com" ⟨true, []⟩ "/feed" {} ⟨true, 200, "[]"⟩
      (by decide),
   C7_prop.2.1 ⟨true, []⟩ "/feed" {} ⟨true, 200, "[]"⟩,
   C7_prop.2.2 ⟨true, []⟩ "/videos" {} ⟨true, 200, "[]"⟩⟩

/-- C4 as stated is false: with `recipe` and `visibility` both provided as
the empty string, JS truthiness omits the `recipe` field (though a recipe
was provided) and replaces the given visibility with `"public"`. -/
theorem C4_counterexample :
    formGet (uploadVideoForm ⟨"T", "F", some "", some ""⟩) "recipe" = none
  ∧ formGet (uploadVideoForm ⟨"T", "F", some "", some ""⟩) "visibility"
      = some (FormEntry.str "public")
  ∧ ("public" : String) ≠ "" :=
  ⟨rfl, rfl, by decide⟩

/-- C4 (amended): the multipart body `uploadVideo` sends contains a
`visibility` field equal to the given visibility when a nonempty one is
provided and `"public"` otherwise, and contains a `recipe` field if and
only if a nonempty recipe is provided. -/
theorem C4_prop (data : UploadVideoData) :
    (∀ v, data.visibility = some v → v ≠ "" →
      formGet (uploadVideoForm data) "visibility" = some (FormEntry.str v))
  ∧ ((data.visibility = none ∨ data.visibility = some "") →
      formGet (uploadVideoForm data) "visibility" = some (FormEntry.str "public"))
  ∧ (∀ r, data.recipe = some r → r ≠ "" →
      formGet (uploadVideoForm data) "recipe" = some (FormEntry.str r))
  ∧ ((data.recipe = none ∨ data.recipe = some "") →
      formGet (uploadVideoForm data) "recipe" = none)
  ∧ (∀ envVar env response, (uploadVideo envVar env data response).1.body
      = some (.formData (uploadVideoForm data))) := by
  obtain ⟨title, fil, recipe, visibility⟩ := data
  refine ⟨?_, ?_, ?_, ?_, fun _ _ _ => rfl⟩
  · intro v hv hvne
    have hvb : (v == "") = false := beq_eq_false_iff_ne.mpr hvne
    subst hv
    rcases recipe with _ | r
    · simp [uploadVideoForm, formGet, List.find?_cons, hvb]
    · by_cases hr : r == "" <;>
        simp [uploadVideoForm, formGet, List.find?_cons, hvb, hr]
  · intro hv
    rcases recipe with _ | r
    · rcases hv with hv | hv <;> subst hv <;>
        simp [uploadVideoForm, formGet, List.find?_cons]
    · rcases hv with hv | hv <;> subst hv <;> by_cases hr : r == "" <;>
        simp [uploadVideoForm, formGet, List.find?_cons, hr]
  · intro r hr hrne
    have hrb : (r == "") = false := beq_eq_false_iff_ne.mpr hrne
    subst hr
    simp [uploadVideoForm, formGet, List.find?_cons, hrb]
  · intro hr
    rcases hr with hr | hr <;> subst hr <;>
      simp [uploadVideoForm, formGet, List.find?_cons]

/-- Witness for C4 at a nonempty recipe and visibility, and at the
defaults. -/
theorem C4_witness :
    formGet (uploadVideoForm ⟨"T", "F", some "pasta", some "private"⟩) "visibility"
      = some (FormEntry.str "private")
  ∧ formGet (uploadVideoForm ⟨"T", "F", none, none⟩) "visibility"
      = some (FormEntry.str "public")
  ∧ formGet (uploadVideoForm ⟨"T", "F", some "pasta", some "private"⟩) "recipe"
      = some (FormEntry.str "pasta")
  ∧ formGet (uploadVideoForm ⟨"T", "F", none, none⟩) "recipe" = none
  ∧ (uploadVideo none ⟨true, []⟩ ⟨"T", "F", none, none⟩ ⟨true, 200, "\x7b\x7d"⟩).1.body
      = some (.formData (uploadVideoForm ⟨"T", "F", none, none⟩)) :=
  ⟨(C4_prop ⟨"T", "F", some "pasta", some "private"⟩).1 "private" rfl (by decide),
   (C4_prop ⟨"T", "F", none, none⟩).2.1 (Or.inl rfl),
   (C4_prop ⟨"T", "F", some "pasta", some "private"⟩).2.2.1 "pasta" rfl (by decide),
   (C4_prop ⟨"T", "F", none, none⟩).2.2.2.1 (Or.inl rfl),
   (C4_prop ⟨"T", "F", none, none⟩).2.2.2.2 none ⟨true, []⟩ ⟨true, 200, "\x7b\x7d"⟩⟩

/-- C1 as stated is false: a non-success response whose body is not JSON
at all (here `"<html>"`) yields the message `"An error occurred"` from the
`.catch` default, which does not reference the numeric status 500. -/
theorem C1_counterexample :
    (apiRequest none ⟨true, []⟩ "/videos" {} ⟨false, 500, "<html>"⟩).2
      = .error (.error "An error occurred")
  ∧ ¬ List.IsInfix (toString 500).data "An error occurred".data :=
  ⟨rfl, by decide⟩

/-- C1 (amended): on a non-success response, (1) a JSON body whose
`detail` field is a nonempty string `X` yields an error with message `X`;
(2) a JSON body other than `null` without a truthy `detail` yields the
message `"HTTP error! status: N"` with the numeric status; (3) a body
that is not valid JSON yields the `.catch` default message
`"An error occurred"`. -/
theorem C1_prop :
    (∀ (envVar : Option String) (env : BrowserEnv) (endpoint : String)
        (options : RequestOptions) (response : HttpResponse) (bj : Json) (X : String),
        response.ok = false → Json.parse response.body = some bj →
        bj.getField "detail" = some (.str X) → X ≠ "" →
        (apiRequest envVar env endpoint options response).2 = .error (.error X))
  ∧ (∀ (envVar : Option String) (env : BrowserEnv) (endpoint : String)
        (options : RequestOptions) (response : HttpResponse) (bj : Json),
        response.ok = false → Json.parse response.body = some bj → bj ≠ .null →
        jsTruthy (bj.getField "detail") = false →
        (apiRequest envVar env endpoint options response).2
          = .error (.error ("HTTP error! status: " ++ toString response.status)))
  ∧ (∀ (envVar : Option String) (env : BrowserEnv) (endpoint : String)
        (options : RequestOptions) (response : HttpResponse),
        response.ok = false → Json.parse response.body = none →
        (apiRequest envVar env endpoint options response).2
          = .error (.error "An error occurred")) := by
  refine ⟨?_, ?_, ?_⟩
  · intro envVar env endpoint options response bj X hok hparse hdet hX
    have hnn : bj ≠ .null := by
      intro h
      subst h
      simp [Json.getField] at hdet
    rw [apiRequest_result_not_ok _ _ _ _ _ hok,
      apiRequestError_of_parse response bj hparse hnn, hdet]
    have htr : (Json.str X).truthy = true := by
      simp [Json.truthy, beq_eq_false_iff_ne.mpr hX]
    simp [htr, jsToString]
  · intro envVar env endpoint options response bj hok hparse hnn hfalsy
    rw [apiRequest_result_not_ok _ _ _ _ _ hok,
      apiRequestError_of_parse response bj hparse hnn]
    rcases hd : bj.getField "detail" with _ | d
    · simp
    · rw [hd] at hfalsy
      simp only [jsTruthy] at hfalsy
      simp [hfalsy]
  · intro envVar env endpoint options response hok hparse
    rw [apiRequest_result_not_ok _ _ _ _ _ hok]
    unfold apiRequestError
    rw [hparse]
    rfl

/-- Witness for C1 at a `detail` body, a detail-less JSON body and a
non-JSON body. -/
theorem C1_witness :
    (apiRequest none ⟨true, []⟩ "/a" {}
        ⟨false, 403, "\x7b\"detail\":\"Forbidden\"\x7d"⟩).2
      = .error (.error "Forbidden")
  ∧ (apiRequest none ⟨true, []⟩ "/a" {} ⟨false, 500, "\x7b\"msg\":\"x\"\x7d"⟩).2
      = .error (.error ("HTTP error! status: " ++ toString (500 : Nat)))
  ∧ (apiRequest none ⟨true, []⟩ "/a" {} ⟨false, 502, "oops"⟩).2
      = .error (.error "An error occurred") :=
  ⟨C1_prop.1 none ⟨true, []⟩ "/a" {} ⟨false, 403, "\x7b\"detail\":\"Forbidden\"\x7d"⟩
      (.obj (.cons "detail" (.str "Forbidden") .nil)) "Forbidden" rfl rfl rfl (by decide),
   C1_prop.2.1 none ⟨true, []⟩ "/a" {} ⟨false, 500, "\x7b\"msg\":\"x\"\x7d"⟩
      (.obj (.cons "msg" (.str "x") .nil)) rfl rfl (fun h => Json.noConfusion h) rfl,
   C1_prop.2.2 none ⟨true, []⟩ "/a" {} ⟨false, 502, "oops"⟩ rfl rfl⟩

/-- C3 as stated is false: in an environment without browser storage the
setters are no-ops, so after a successful `login` the Store still holds no
token, although the backend returned a well-formed token object and
`login` returned it. -/
theorem C3_counterexample :
    (login none ⟨false, []⟩ "alice" "pw"
        ⟨true, 200, "\x7b\"access_token\":\"t\",\"user\":\x7b\x7d\x7d"⟩).2.2
      = .ok (.obj (.cons "access_token" (.str "t") (.cons "user" (.obj .nil) .nil)))
  ∧ getToken (login none ⟨false, []⟩ "alice" "pw"
        ⟨true, 200, "\x7b\"access_token\":\"t\",\"user\":\x7b\x7d\x7d"⟩).2.1 = none :=
  ⟨rfl, rfl⟩

/-- C3 (amended): with browser storage available, for every `login` call
whose backend response is ok and parses to a token object with
`access_token` the string `t` and `user` the record `u`, afterwards the
Store holds token `t` and user `u`, and `login` returns that token
object. -/
theorem C3_prop (envVar : Option String) (env : BrowserEnv) (username password t : String)
    (u tok : Json) (response : HttpResponse)
    (hwin : env.hasWindow = true) (hok : response.ok = true)
    (hparse : Json.parse response.body = some tok)
    (htok : tok.getField "access_token" = some (.str t))
    (huser : tok.getField "user" = some u) :
    getToken (login envVar env username password response).2.1 = some t
  ∧ getUser (login envVar env username password response).2.1 = some u
  ∧ (login envVar env username password response).2.2 = .ok tok := by
  have hres : (apiRequest envVar env "/auth/login" (loginOptions username password) response).2
      = .ok tok := apiRequest_result_ok _ _ _ _ _ _ hok hparse
  have henv : (login envVar env username password response).2.1
      = setUser (setToken env t) u := by
    simp [login, hres, htok, huser]
  have hout : (login envVar env username password response).2.2 = .ok tok := by
    simp [login, hres]
  have h1 : (setToken env t).hasWindow = true := by simp [setToken, hwin]
  refine ⟨?_, ?_, hout⟩
  · rw [henv]
    simp only [setToken, setUser, getToken, hwin, h1, Bool.true_eq_false, if_false]
    rw [storageGet_set_other _ _ _ _ (by decide)]
    exact storageGet_set_same _ _ _
  · rw [henv]
    have hne : (Json.stringify u == "") = false :=
      beq_eq_false_iff_ne.mpr (Json.stringify_ne_empty u)
    simp [setToken, setUser, getUser, hwin, h1, storageGet_set_same, hne,
      Json.parse_stringify]

/-- Witness for C3 at a concrete successful login against storage. -/
theorem C3_witness :
    getToken (login none ⟨true, []⟩ "alice" "pw"
        ⟨true, 200, "\x7b\"access_token\":\"t\",\"user\":\x7b\x7d\x7d"⟩).2.1 = some "t"
  ∧ getUser (login none ⟨true, []⟩ "alice" "pw"
        ⟨true, 200, "\x7b\"access_token\":\"t\",\"user\":\x7b\x7d\x7d"⟩).2.1
      = some (.obj .nil)
  ∧ (login none ⟨true, []⟩ "alice" "pw"
        ⟨true, 200, "\x7b\"access_token\":\"t\",\"user\":\x7b\x7d\x7d"⟩).2.2
      = .ok (.obj (.cons "access_token" (.str "t") (.cons "user" (.obj .nil) .nil))) :=
  C3_prop none ⟨true, []⟩ "alice" "pw" "t" (.obj .nil)
    (.obj (.cons "access_token" (.str "t") (.cons "user" (.obj .nil) .nil)))
    ⟨true, 200, "\x7b\"access_token\":\"t\",\"user\":\x7b\x7d\x7d"⟩
    rfl rfl rfl rfl rfl

end VideoCosmos
